import Mathlib

/-!
Verification of the MultiLang greeting utility (Rust sources
`src/greet.rs` and `src/src/greet_lib.rs`) against its specification.

The two Rust entry points are shallowly embedded as pure Lean functions.
Console I/O is modelled explicitly: the outcome of `read_line` is a
parameter (`ReadLineResult`), the outcome of the explicit `flush` is a
parameter (`FlushResult`), and each function returns a record listing the
byte strings it printed to standard output and standard error, the byte
writes it performed into the caller-supplied buffer, and whether it
panicked.  Text is modelled as lists of byte values; `usize` arithmetic
is modelled as natural numbers with explicit wrapping modulo 2^64
(release-mode Rust semantics for overflowing subtraction).

Per the Rust standard library, `read_line` at end-of-stream returns
`Ok(0)` and appends nothing to the destination string; that case is
modelled as `ReadLineResult.ok []`.
-/

namespace MultiLang

/-- Byte values of an ASCII string literal (UTF-8 agrees with the code
points below 128; all literals used in this file are ASCII). -/
def strBytes (s : String) : List Nat := s.data.map Char.toNat

/-- Whitespace bytes recognised by Rust `str::trim` on ASCII text:
tab, line feed, vertical tab, form feed, carriage return, space. -/
def isWhitespaceByte (b : Nat) : Bool :=
  b = 9 || b = 10 || b = 11 || b = 12 || b = 13 || b = 32

/-- Model of Rust `str::trim` on the byte level: remove leading and
trailing whitespace bytes. -/
def trimBytes (l : List Nat) : List Nat :=
  ((l.dropWhile isWhitespaceByte).reverse.dropWhile isWhitespaceByte).reverse

/-- Outcome of `io::stdin().read_line(&mut input)`: success carries the
bytes appended to `input` (end-of-stream gives `Ok(0)` with no bytes,
modelled as `ok []`); failure carries the display bytes of the
`io::Error`. -/
inductive ReadLineResult where
  | ok (bytes : List Nat)
  | err (e : List Nat)
deriving DecidableEq

/-- Outcome of `io::stdout().flush()`. -/
inductive FlushResult where
  | ok
  | err
deriving DecidableEq

/-- Number of values of the Rust `usize` type (64-bit target). -/
def USIZE : Nat := 2 ^ 64

/-- Release-mode Rust `size - 1` on `usize`: wrapping subtraction,
modelled as addition of `USIZE - 1` modulo `USIZE`. -/
def usizeSub1 (n : Nat) : Nat := (n + (USIZE - 1)) % USIZE

/-- Result of one call of the foreign-callable reader: whether it
panicked, the single-byte writes (offset, value) it performed into the
caller buffer in order, and the byte strings written to standard output
and standard error. -/
structure AskResult where
  panicked : Bool
  writes : List (Nat × Nat)
  stdout : List (List Nat)
  stderr : List (List Nat)
deriving DecidableEq

/-- Prompt printed by `ask_name_rust` (no trailing newline; `print!`). -/
def promptRust : List Nat := strBytes "Enter your name (Rust version): "

/-- The buffer writes performed by the success branch of
`ask_name_rust`: `copy_nonoverlapping(trimmed.as_ptr(), name, n)`
followed by the null terminator `*name.add(n) = 0`. -/
def copyWrites (src : List Nat) (n : Nat) : List (Nat × Nat) :=
  ((List.range n).map fun i => (i, src.getD i 0)) ++ [(n, 0)]

/-- Shallow embedding of `ask_name_rust` from `src/src/greet_lib.rs`.
The function prints a prompt, flushes (panicking via `unwrap` on flush
failure), reads a line, and on success copies
`min(trimmed.len(), size - 1)` bytes plus a null terminator into the
caller buffer; on read failure it prints a diagnostic and writes a
single null byte at offset 0. -/
def ask_name_rust (flush : FlushResult) (input : ReadLineResult) (size : Nat) :
    AskResult :=
  match flush with
  | .err =>
    { panicked := true
      writes := []
      stdout := [promptRust]
      stderr := [] }
  | .ok =>
    match input with
    | .ok bytes =>
      let trimmed := trimBytes bytes
      let n := min trimmed.length (usizeSub1 size)
      { panicked := false
        writes := copyWrites trimmed n
        stdout := [promptRust,
          strBytes "Hello from Rust, " ++ trimmed ++ strBytes "!" ++ [10]]
        stderr := [] }
    | .err e =>
      { panicked := false
        writes := [(0, 0)]
        stdout := [promptRust]
        stderr := [strBytes "Error reading input: " ++ e ++ [10]] }

/-- Apply a list of single-byte writes (offset, value) to a buffer whose
contents are the given list; a write at an offset beyond the list length
leaves the list unchanged (`List.set` semantics). -/
def applyWrites (buf : List Nat) (ws : List (Nat × Nat)) : List Nat :=
  ws.foldl (fun b w => b.set w.1 w.2) buf

/-- Result of one run of the console greeter: the byte strings printed
to standard output and standard error, and the returned
`io::Result<()>`. -/
structure MainResult where
  stdout : List (List Nat)
  stderr : List (List Nat)
  result : Except (List Nat) Unit

/-- Prompt printed by the console greeter (`println!`, so the line feed
is part of the output). -/
def promptMain : List Nat := strBytes "Enter your name: " ++ [10]

/-- Shallow embedding of `main` from `src/greet.rs`: print the prompt,
read a line; on success print the greeting with the trimmed input and
return `Ok(())`, on failure print a diagnostic containing the error to
standard error and return `Err(e)`. -/
def main (input : ReadLineResult) : MainResult :=
  match input with
  | .ok bytes =>
    { stdout := [promptMain,
        strBytes "Hello " ++ trimBytes bytes ++ strBytes " from Rust!" ++ [10]]
      stderr := []
      result := .ok () }
  | .err e =>
    { stdout := [promptMain]
      stderr := [strBytes "Error reading input: " ++ e ++ [10]]
      result := .error e }

/-- Process exit status produced by the Rust runtime from the value
returned by `main`: `Ok` maps to 0, `Err` to the non-zero failure
code. -/
def exitCode : Except (List Nat) Unit → Nat
  | .ok _ => 0
  | .error _ => 1

/-! Helper lemmas about `applyWrites`. -/

lemma applyWrites_append (buf : List Nat) (ws1 ws2 : List (Nat × Nat)) :
    applyWrites buf (ws1 ++ ws2) = applyWrites (applyWrites buf ws1) ws2 :=
  List.foldl_append _ _ _ _

lemma set_append_length_add (A B : List Nat) (i v : Nat) :
    (A ++ B).set (A.length + i) v = A ++ B.set i v := by
  induction A with
  | nil => simp
  | cons a A ih =>
      simp only [List.cons_append, List.length_cons]
      have h : A.length + 1 + i = (A.length + i) + 1 := by omega
      rw [h, List.set_cons_succ, ih]

lemma applyWrites_range (t buf : List Nat) (n : Nat)
    (hn : n ≤ t.length) (hb : n ≤ buf.length) :
    applyWrites buf ((List.range n).map fun i => (i, t.getD i 0)) =
      t.take n ++ buf.drop n := by
  induction n with
  | zero => simp [applyWrites]
  | succ m ih =>
      have hm : m ≤ t.length := Nat.le_of_succ_le hn
      have hmb : m ≤ buf.length := Nat.le_of_succ_le hb
      rw [List.range_succ, List.map_append, applyWrites_append, ih hm hmb]
      simp only [List.map_cons, List.map_nil]
      show (t.take m ++ buf.drop m).set m (t.getD m 0) = _
      have hlen : (t.take m).length = m := List.length_take_of_le hm
      have hdrop : buf.drop m = buf.getD m 0 :: buf.drop (m + 1) := by
        have hlt : m < buf.length := hb
        rw [List.getD_eq_getElem _ _ hlt]
        exact (List.drop_eq_getElem_cons hlt)
      have hlt : m < t.length := hn
      have htake : t.take (m + 1) = t.take m ++ [t.getD m 0] := by
        rw [List.getD_eq_getElem _ _ hlt, List.take_succ,
          List.getElem?_eq_getElem hlt]
        rfl
      calc (t.take m ++ buf.drop m).set m (t.getD m 0)
          = (t.take m ++ buf.drop m).set ((t.take m).length + 0) (t.getD m 0) := by
            rw [hlen, Nat.add_zero]
        _ = t.take m ++ (buf.drop m).set 0 (t.getD m 0) := set_append_length_add ..
        _ = t.take m ++ t.getD m 0 :: buf.drop (m + 1) := by
            rw [hdrop]; rfl
        _ = t.take (m + 1) ++ buf.drop (m + 1) := by
            rw [htake]; simp

lemma applyWrites_copyWrites (t buf : List Nat) (n : Nat)
    (hn : n ≤ t.length) (hb : n < buf.length) :
    applyWrites buf (copyWrites t n) = t.take n ++ 0 :: buf.drop (n + 1) := by
  rw [copyWrites, applyWrites_append,
    applyWrites_range t buf n hn (Nat.le_of_lt hb)]
  show (t.take n ++ buf.drop n).set n 0 = _
  have hlen : (t.take n).length = n := List.length_take_of_le hn
  have hdrop : buf.drop n = buf.getD n 0 :: buf.drop (n + 1) := by
    rw [List.getD_eq_getElem _ _ hb]
    exact (List.drop_eq_getElem_cons hb)
  calc (t.take n ++ buf.drop n).set n 0
      = (t.take n ++ buf.drop n).set ((t.take n).length + 0) 0 := by
        rw [hlen, Nat.add_zero]
    _ = t.take n ++ (buf.drop n).set 0 0 := set_append_length_add ..
    _ = t.take n ++ 0 :: buf.drop (n + 1) := by rw [hdrop]; rfl

lemma applyWrites_single_zero (buf : List Nat) (h : 1 ≤ buf.length) :
    applyWrites buf [(0, 0)] = 0 :: buf.drop 1 := by
  cases buf with
  | nil => simp at h
  | cons a t => rfl

lemma usizeSub1_eq (n : Nat) (h1 : 1 ≤ n) (h2 : n ≤ USIZE) :
    usizeSub1 n = n - 1 := by
  unfold usizeSub1
  have h : n + (USIZE - 1) = (n - 1) + USIZE := by
    have : 1 ≤ USIZE := Nat.one_le_two_pow
    omega
  rw [h, Nat.add_mod_right, Nat.mod_eq_of_lt]
  have : 1 ≤ USIZE := Nat.one_le_two_pow
  omega

lemma take_append_length_add (A B : List Nat) (i : Nat) :
    (A ++ B).take (A.length + i) = A ++ B.take i := by
  induction A with
  | nil => simp
  | cons a A ih =>
      simp only [List.cons_append, List.length_cons]
      have h : A.length + 1 + i = (A.length + i) + 1 := by omega
      rw [h, List.take_succ_cons, ih]

/-- Claim C8: whenever the console greeter reads a line successfully, it
prints the prompt and exactly the greeting built from the trimmed input,
writes nothing to standard error, and returns a success result carrying
no value. -/
theorem c8_success_greeting (bytes : List Nat) :
    (main (.ok bytes)).stdout
      = [promptMain,
        strBytes "Hello " ++ trimBytes bytes ++ strBytes " from Rust!" ++ [10]] ∧
    (main (.ok bytes)).result = Except.ok () ∧
    (main (.ok bytes)).stderr = [] :=
  ⟨rfl, rfl, rfl⟩

/-- Claim C9: whenever the console greeter fails to read, it writes a
diagnostic containing the error to standard error and returns a failure
result carrying the error, so the process exit status is non-zero
exactly on read failure and zero on success. -/
theorem c9_failure_propagation (e bytes : List Nat) :
    (main (.err e)).stderr = [strBytes "Error reading input: " ++ e ++ [10]] ∧
    (main (.err e)).result = Except.error e ∧
    exitCode (main (.err e)).result ≠ 0 ∧
    exitCode (main (.ok bytes)).result = 0 :=
  ⟨rfl, rfl, Nat.one_ne_zero, rfl⟩

/-- Claim C10: when the explicit flush of standard output fails, the
buffered name reader panics via `unwrap` before reading input: it
performs no write into the caller buffer and emits no diagnostic. -/
theorem c10_flush_failure_panics (input : ReadLineResult) (size : Nat) :
    (ask_name_rust .err input size).panicked = true ∧
    (ask_name_rust .err input size).writes = [] ∧
    (ask_name_rust .err input size).stderr = [] :=
  ⟨rfl, rfl, rfl⟩

/-- Claim C7: whenever the buffered name reader fails to read from
standard input, it emits a diagnostic to standard error, writes exactly
one null byte at offset 0 of the destination buffer, and every byte at a
nonzero offset keeps its previous value. -/
theorem c7_read_failure (e : List Nat) (size : Nat) :
    (ask_name_rust .ok (.err e) size).writes = [(0, 0)] ∧
    (ask_name_rust .ok (.err e) size).stderr
      = [strBytes "Error reading input: " ++ e ++ [10]] ∧
    ∀ buf : List Nat, 1 ≤ buf.length →
      applyWrites buf (ask_name_rust .ok (.err e) size).writes
        = 0 :: buf.drop 1 :=
  ⟨rfl, rfl, fun buf hbuf => applyWrites_single_zero buf hbuf⟩

/-- Witness for C7 at a concrete error and buffer. -/
theorem c7_read_failure_witness :
    (ask_name_rust .ok (.err (strBytes "broken pipe")) 4).writes = [(0, 0)] ∧
    (ask_name_rust .ok (.err (strBytes "broken pipe")) 4).stderr
      = [strBytes "Error reading input: " ++ strBytes "broken pipe" ++ [10]] ∧
    applyWrites [9, 9, 9, 9]
        (ask_name_rust .ok (.err (strBytes "broken pipe")) 4).writes
      = 0 :: [9, 9, 9, 9].drop 1 := by
  obtain ⟨h1, h2, h3⟩ := c7_read_failure (strBytes "broken pipe") 4
  exact ⟨h1, h2, h3 [9, 9, 9, 9] (by decide)⟩

/-- Claim C6: with capacity 1 the buffered name reader writes exactly
one null byte at offset 0, whatever the input line was. -/
theorem c6_capacity_one (bytes buf : List Nat) (hbuf : 1 ≤ buf.length) :
    (ask_name_rust .ok (.ok bytes) 1).writes = [(0, 0)] ∧
    applyWrites buf (ask_name_rust .ok (.ok bytes) 1).writes
      = 0 :: buf.drop 1 := by
  have husize : usizeSub1 1 = 0 := by
    have h := usizeSub1_eq 1 (Nat.le_refl 1) (by norm_num [USIZE])
    simpa using h
  have hw : (ask_name_rust .ok (.ok bytes) 1).writes = [(0, 0)] := by
    show copyWrites (trimBytes bytes)
      (min (trimBytes bytes).length (usizeSub1 1)) = [(0, 0)]
    rw [husize, Nat.min_zero]
    simp [copyWrites]
  exact ⟨hw, by rw [hw]; exact applyWrites_single_zero buf hbuf⟩

/-- Witness for C6 at a concrete input and buffer. -/
theorem c6_capacity_one_witness :
    (ask_name_rust .ok (.ok (strBytes "Bob\n")) 1).writes = [(0, 0)] ∧
    applyWrites [5, 6, 7] (ask_name_rust .ok (.ok (strBytes "Bob\n")) 1).writes
      = 0 :: [5, 6, 7].drop 1 :=
  c6_capacity_one (strBytes "Bob\n") [5, 6, 7] (by decide)

/-- Claim C2: with declared capacity at least 1 (and a representable
`usize`), every call of the buffered name reader performs at most
`size` single-byte writes and no write lands at an offset at or beyond
the capacity, whatever the flush and read outcomes. -/
theorem c2_writes_within_capacity (flush : FlushResult) (input : ReadLineResult)
    (size : Nat) (h1 : 1 ≤ size) (h2 : size ≤ USIZE) :
    ((ask_name_rust flush input size).writes).length ≤ size ∧
    ∀ w ∈ (ask_name_rust flush input size).writes, w.1 < size := by
  cases flush with
  | err =>
      refine ⟨?_, ?_⟩
      · show ([] : List (Nat × Nat)).length ≤ size
        simp
      · intro w hw
        have hw2 : w ∈ ([] : List (Nat × Nat)) := hw
        simp at hw2
  | ok =>
      cases input with
      | err e =>
          refine ⟨?_, ?_⟩
          · show [((0 : Nat), (0 : Nat))].length ≤ size
            simpa using h1
          · intro w hw
            have hw2 : w ∈ [((0 : Nat), (0 : Nat))] := hw
            have hw3 : w = ((0 : Nat), (0 : Nat)) := by simpa using hw2
            rw [hw3]
            exact h1
      | ok bytes =>
          have hs : usizeSub1 size = size - 1 := usizeSub1_eq size h1 h2
          have hn : min (trimBytes bytes).length (usizeSub1 size) ≤ size - 1 := by
            rw [hs]
            exact Nat.min_le_right _ _
          refine ⟨?_, ?_⟩
          · show (copyWrites (trimBytes bytes)
                (min (trimBytes bytes).length (usizeSub1 size))).length ≤ size
            simp only [copyWrites, List.length_append, List.length_map,
              List.length_range, List.length_cons, List.length_nil]
            omega
          · intro w hw
            have hw2 : w ∈ copyWrites (trimBytes bytes)
                (min (trimBytes bytes).length (usizeSub1 size)) := hw
            simp only [copyWrites, List.mem_append, List.mem_map,
              List.mem_range, List.mem_singleton] at hw2
            rcases hw2 with ⟨i, hi, rfl⟩ | rfl
            · show i < size
              omega
            · show min (trimBytes bytes).length (usizeSub1 size) < size
              omega

/-- Witness for C2 at a concrete input and capacity. -/
theorem c2_writes_within_capacity_witness :
    ((ask_name_rust .ok (.ok (strBytes "Alice\n")) 32).writes).length ≤ 32 ∧
    ∀ w ∈ (ask_name_rust .ok (.ok (strBytes "Alice\n")) 32).writes,
      w.1 < 32 :=
  c2_writes_within_capacity .ok (.ok (strBytes "Alice\n")) 32 (by decide)
    (by norm_num [USIZE])

/-- Claim C3: when the trimmed input is at least `size - 1` bytes long
(capacity at least 1, buffer at least `size` bytes), a successful read
leaves in the first `size` bytes of the buffer exactly the first
`size - 1` bytes of the trimmed input followed by one null byte. -/
theorem c3_truncation (bytes buf : List Nat) (size : Nat)
    (h1 : 1 ≤ size) (h2 : size ≤ USIZE)
    (hL : size - 1 ≤ (trimBytes bytes).length)
    (hbuf : size ≤ buf.length) :
    (applyWrites buf (ask_name_rust .ok (.ok bytes) size).writes).take size
      = (trimBytes bytes).take (size - 1) ++ [0] := by
  have hs : usizeSub1 size = size - 1 := usizeSub1_eq size h1 h2
  have hmin : min (trimBytes bytes).length (usizeSub1 size) = size - 1 := by
    rw [hs]
    exact min_eq_right hL
  have hwrites : (ask_name_rust .ok (.ok bytes) size).writes
      = copyWrites (trimBytes bytes) (size - 1) := by
    show copyWrites (trimBytes bytes)
      (min (trimBytes bytes).length (usizeSub1 size)) = _
    rw [hmin]
  rw [hwrites, applyWrites_copyWrites _ _ _ hL (by omega)]
  have hlen : ((trimBytes bytes).take (size - 1)).length = size - 1 :=
    List.length_take_of_le hL
  have key := take_append_length_add ((trimBytes bytes).take (size - 1))
    (0 :: buf.drop (size - 1 + 1)) 1
  rw [hlen] at key
  have hplus : size - 1 + 1 = size := by omega
  rw [hplus] at key
  rw [hplus, key]
  simp

/-- Witness for C3: Scenario C of the specification, a 32-byte name
truncated into a capacity-5 buffer. -/
theorem c3_truncation_witness :
    (applyWrites (List.replicate 8 7)
        (ask_name_rust .ok
          (.ok (strBytes "ThisNameIsWayTooLongForTheBuffer\n")) 5).writes).take 5
      = (trimBytes (strBytes "ThisNameIsWayTooLongForTheBuffer\n")).take (5 - 1)
        ++ [0] :=
  c3_truncation (strBytes "ThisNameIsWayTooLongForTheBuffer\n")
    (List.replicate 8 7) 5 (by decide) (by norm_num [USIZE]) (by decide)
    (by decide)

/-- Claim C4: when the trimmed input is strictly shorter than
`size - 1` (buffer at least `size` bytes), a successful read writes
exactly the trimmed bytes from offset 0 followed by one null byte, and
no write lands at any offset beyond the null terminator. -/
theorem c4_exact_copy (bytes buf : List Nat) (size : Nat)
    (h2 : size ≤ USIZE)
    (hL : (trimBytes bytes).length < size - 1)
    (hbuf : size ≤ buf.length) :
    applyWrites buf (ask_name_rust .ok (.ok bytes) size).writes
      = trimBytes bytes ++ 0 :: buf.drop ((trimBytes bytes).length + 1) ∧
    ∀ w ∈ (ask_name_rust .ok (.ok bytes) size).writes,
      w.1 ≤ (trimBytes bytes).length := by
  have h1 : 1 ≤ size := by omega
  have hs : usizeSub1 size = size - 1 := usizeSub1_eq size h1 h2
  have hmin : min (trimBytes bytes).length (usizeSub1 size)
      = (trimBytes bytes).length := by
    rw [hs]
    exact min_eq_left (Nat.le_of_lt hL)
  have hwrites : (ask_name_rust .ok (.ok bytes) size).writes
      = copyWrites (trimBytes bytes) (trimBytes bytes).length := by
    show copyWrites (trimBytes bytes)
      (min (trimBytes bytes).length (usizeSub1 size)) = _
    rw [hmin]
  constructor
  · rw [hwrites,
      applyWrites_copyWrites _ _ _ (Nat.le_refl _) (by omega),
      List.take_length]
  · intro w hw
    rw [hwrites] at hw
    simp only [copyWrites, List.mem_append, List.mem_map, List.mem_range,
      List.mem_singleton] at hw
    rcases hw with ⟨i, hi, rfl⟩ | rfl
    · exact Nat.le_of_lt hi
    · exact Nat.le_refl _

/-- Witness for C4: Scenario A of the specification, the name Alice in
a capacity-32 buffer. -/
theorem c4_exact_copy_witness :
    applyWrites (List.replicate 32 1)
        (ask_name_rust .ok (.ok (strBytes "Alice\n")) 32).writes
      = trimBytes (strBytes "Alice\n")
        ++ 0 :: (List.replicate 32 1).drop
          ((trimBytes (strBytes "Alice\n")).length + 1) ∧
    ∀ w ∈ (ask_name_rust .ok (.ok (strBytes "Alice\n")) 32).writes,
      w.1 ≤ (trimBytes (strBytes "Alice\n")).length :=
  c4_exact_copy (strBytes "Alice\n") (List.replicate 32 1) 32
    (by norm_num [USIZE]) (by decide) (by decide)

/-- Counterexample to claim C1 as stated: on empty input (immediate
end-of-stream) Rust `read_line` returns `Ok(0)`, so the console greeter
returns a success result, not a failure, and the buffered name reader
emits no diagnostic to standard error. -/
theorem c1_counterexample :
    (main (.ok [])).result = Except.ok () ∧
    (ask_name_rust .ok (.ok []) 32).stderr = [] :=
  ⟨rfl, rfl⟩

/-- Claim C1 as amended: on immediate end-of-stream the read succeeds
with zero bytes; the console greeter prints the greeting with an empty
name and returns success with nothing on standard error, and the
buffered name reader takes the success path, writing a null byte at
offset 0 (the trimmed name is empty) and emitting no diagnostic. -/
theorem c1_eof_is_success (size : Nat) :
    (main (.ok [])).result = Except.ok () ∧
    (main (.ok [])).stderr = [] ∧
    (main (.ok [])).stdout
      = [promptMain, strBytes "Hello " ++ strBytes " from Rust!" ++ [10]] ∧
    (ask_name_rust .ok (.ok []) size).writes = [(0, 0)] ∧
    (ask_name_rust .ok (.ok []) size).stderr = [] := by
  have hw : (ask_name_rust .ok (.ok []) size).writes = [(0, 0)] := by
    show copyWrites (trimBytes [])
      (min (trimBytes []).length (usizeSub1 size)) = [(0, 0)]
    have ht : trimBytes ([] : List Nat) = [] := rfl
    rw [ht]
    show copyWrites [] (min 0 (usizeSub1 size)) = [(0, 0)]
    rw [min_eq_left (Nat.zero_le _)]
    simp [copyWrites]
  exact ⟨rfl, rfl, rfl, hw, rfl⟩

/-- Counterexample to claim C5 as stated: with capacity 0 and input
line Al, the buffered name reader is not rejected and does write into
the caller buffer — the wrapping `size - 1` makes it copy both trimmed
bytes and a null terminator, at offsets 0, 1, 2, all at or beyond the
declared capacity of 0. -/
theorem c5_counterexample :
    (ask_name_rust .ok (.ok (strBytes "Al\n")) 0).writes
      = [(0, 65), (1, 108), (2, 0)] := by
  decide

/-- Claim C5 as amended: with capacity 0 the call is not rejected; the
`size - 1` computation wraps to `USIZE - 1`, `bytes_to_copy` becomes the
full trimmed length, and the reader performs `trimmed length + 1` writes
(the trimmed bytes plus a null terminator), all out of the declared
zero-byte bounds. -/
theorem c5_capacity_zero_writes (bytes : List Nat)
    (h : (trimBytes bytes).length < USIZE) :
    (ask_name_rust .ok (.ok bytes) 0).writes
      = copyWrites (trimBytes bytes) (trimBytes bytes).length ∧
    ((ask_name_rust .ok (.ok bytes) 0).writes).length
      = (trimBytes bytes).length + 1 := by
  have hone : 1 ≤ USIZE := Nat.one_le_two_pow
  have hs : usizeSub1 0 = USIZE - 1 := by
    unfold usizeSub1
    rw [Nat.zero_add, Nat.mod_eq_of_lt (by omega)]
  have hmin : min (trimBytes bytes).length (usizeSub1 0)
      = (trimBytes bytes).length := by
    rw [hs]
    exact min_eq_left (by omega)
  have hw : (ask_name_rust .ok (.ok bytes) 0).writes
      = copyWrites (trimBytes bytes) (trimBytes bytes).length := by
    show copyWrites (trimBytes bytes)
      (min (trimBytes bytes).length (usizeSub1 0)) = _
    rw [hmin]
  refine ⟨hw, ?_⟩
  rw [hw]
  simp [copyWrites]

/-- Witness for the amended C5 at a concrete input. -/
theorem c5_capacity_zero_writes_witness :
    (ask_name_rust .ok (.ok (strBytes "Al\n")) 0).writes
      = copyWrites (trimBytes (strBytes "Al\n"))
        (trimBytes (strBytes "Al\n")).length ∧
    ((ask_name_rust .ok (.ok (strBytes "Al\n")) 0).writes).length
      = (trimBytes (strBytes "Al\n")).length + 1 :=
  c5_capacity_zero_writes (strBytes "Al\n") (by decide)

end MultiLang
